import Mathlib

set_option maxHeartbeats 1000000

/-!
Shallow embedding of the AuditEventsModule Go repository.

The repository implements an audit-event store with two backends behind one
interface:
  * `FileAuditLogger` (audit/audit.go): appends one JSON-serialized event per
    line to a file; reads by a full scan with a filter.
  * `DBAuditLogger` (audit/db_audit.go): inserts rows into a SQLite table
    `audit_events`; reads with a SQL filter and `ORDER BY epoch_timestamp_sec ASC`.
plus a factory/facade (audit/factory.go) holding a process-wide instance, and
an HTTP middleware adapter (audit/middleware.go).

Modelling conventions:
  * Go `int64` is modelled as `Int`: the code performs no arithmetic on these
    values, only comparisons and equality, so overflow never arises.
  * Go `interface{}` metadata is modelled as `Option Json`, a JSON-compatible
    value; `none` models Go `nil` (serialized as the absent/`null` field by
    `omitempty`, and as the empty string in the DB's `metadata` text column).
    `json.Marshal` followed by `json.Unmarshal` into `interface{}` is the
    identity on this JSON-value level (structural equality of the JSON data),
    which is exactly how the model identifies metadata values.
  * Time (`time.Now().Unix()`) is passed in as an explicit `now : Int`
    parameter wherever the code calls it.
-/

/-- A JSON-compatible metadata value, as produced by `json.Unmarshal` into a Go
`interface{}`. Absent/`nil` metadata is `Option.none` at the use sites.
Arrays and objects carry their elements as built-in cons-lists (`arrNil` /
`arrCons`, `objNil` / `objCons`) so that the type is a plain inductive. -/
inductive Json where
  | bool (b : Bool)
  | num (n : Int)
  | str (s : String)
  | arrNil
  | arrCons (head : Json) (tail : Json)
  | objNil
  | objCons (name : String) (val : Json) (rest : Json)
  deriving DecidableEq, Repr

/-- `AuditEvent` from audit/audit.go: one audited action occurrence.
Field names follow the Go struct. -/
structure AuditEvent where
  Username : String
  ActionString : String
  ExtraMsg : String
  EpochTimestampSec : Int
  OrgID : Int
  Metadata : Option Json
  deriving DecidableEq, Repr

/-- One line of the file backend's log file, as seen by `JSONScanner.Scan` plus
`json.Unmarshal` in `FileAuditLogger.ReadAuditEvents`: a line either
unmarshals to an `AuditEvent` (`ok`) or fails to parse (`bad`, the raw text).
`FileAuditLogger.CreateAuditEvent` only ever appends `ok` lines, because
`json.Marshal` of an `AuditEvent` always yields one parseable line. -/
inductive FileLine where
  | ok (e : AuditEvent)
  | bad (raw : String)
  deriving DecidableEq, Repr

namespace FileAuditLogger

/-- The contents of the audit log file, in file order. -/
abbrev State := List FileLine

/-- `FileAuditLogger.CreateAuditEvent` (audit/audit.go): substitutes `now` for
a zero timestamp, marshals the event and appends it as one line. -/
def CreateAuditEvent (st : State) (username actionString extraMsg : String)
    (epochTimestampSec orgID : Int) (metadata : Option Json) (now : Int) : State :=
  let ts := if epochTimestampSec = 0 then now else epochTimestampSec
  st ++ [FileLine.ok ⟨username, actionString, extraMsg, ts, orgID, metadata⟩]

/-- The filter applied by `FileAuditLogger.ReadAuditEvents`:
`event.OrgID == orgID && event.EpochTimestampSec >= startEpochSec &&
 (endEpochSec == 0 || event.EpochTimestampSec <= endEpochSec)`. -/
def eventMatches (orgID startEpochSec endEpochSec : Int) (e : AuditEvent) : Bool :=
  e.OrgID == orgID && decide (startEpochSec ≤ e.EpochTimestampSec) &&
    (endEpochSec == 0 || decide (e.EpochTimestampSec ≤ endEpochSec))

/-- `FileAuditLogger.ReadAuditEvents` (audit/audit.go): scans line by line;
a line that fails to unmarshal is skipped (`continue`); matching events are
appended to the result in file order. No sorting is performed. -/
def ReadAuditEvents : State → Int → Int → Int → List AuditEvent
  | [], _, _, _ => []
  | FileLine.bad _ :: rest, orgID, s, e => ReadAuditEvents rest orgID s e
  | FileLine.ok ev :: rest, orgID, s, e =>
    if eventMatches orgID s e ev then ev :: ReadAuditEvents rest orgID s e
    else ReadAuditEvents rest orgID s e

end FileAuditLogger

/-- One row of the `audit_events` table (audit/db_audit.go). The `metadata`
TEXT column stores `string(json.Marshal(metadata))`; since a serialized JSON
value is never the empty string, the column's parsed content is faithfully
modelled as `Option Json` with `none` for the empty string written when the
Go metadata was `nil`. Rows are kept in rowid (insertion) order. -/
structure DBRow where
  username : String
  action_string : String
  extra_msg : String
  epoch_timestamp_sec : Int
  org_id : Int
  metadata : Option Json
  deriving DecidableEq, Repr

namespace DBAuditLogger

/-- The contents of the `audit_events` table, in rowid (insertion) order. -/
abbrev State := List DBRow

/-- `DBAuditLogger.CreateAuditEvent` (audit/db_audit.go): substitutes `now`
for a zero timestamp, serializes metadata to text (empty for `nil`) and
inserts one row. -/
def CreateAuditEvent (st : State) (username actionString extraMsg : String)
    (epochTimestampSec orgID : Int) (metadata : Option Json) (now : Int) : State :=
  let ts := if epochTimestampSec = 0 then now else epochTimestampSec
  st ++ [⟨username, actionString, extraMsg, ts, orgID, metadata⟩]

/-- The SQL filter of `DBAuditLogger.ReadAuditEvents`:
`WHERE org_id = ? AND epoch_timestamp_sec >= ?`, and the clause
`AND epoch_timestamp_sec <= ?` is added only when `endEpochSec > 0`. -/
def rowMatches (orgID startEpochSec endEpochSec : Int) (r : DBRow) : Bool :=
  r.org_id == orgID && decide (startEpochSec ≤ r.epoch_timestamp_sec) &&
    (if 0 < endEpochSec then decide (r.epoch_timestamp_sec ≤ endEpochSec) else true)

/-- Row order produced by `ORDER BY epoch_timestamp_sec ASC`. -/
def rowLe (a b : DBRow) : Prop := a.epoch_timestamp_sec ≤ b.epoch_timestamp_sec

instance : DecidableRel rowLe := fun a b =>
  if h : a.epoch_timestamp_sec ≤ b.epoch_timestamp_sec then .isTrue h else .isFalse h

instance : IsTotal DBRow rowLe := ⟨fun a b => Int.le_total a.epoch_timestamp_sec b.epoch_timestamp_sec⟩

instance : IsTrans DBRow rowLe := ⟨fun _ _ _ h h₂ => le_trans h h₂⟩

/-- `rows.Scan` plus the metadata unmarshalling loop: converts a row back to
an `AuditEvent`. A non-empty metadata text always unmarshals (it came from
`json.Marshal`), yielding the stored JSON value. -/
def toAuditEvent (r : DBRow) : AuditEvent :=
  ⟨r.username, r.action_string, r.extra_msg, r.epoch_timestamp_sec, r.org_id, r.metadata⟩

/-- `DBAuditLogger.ReadAuditEvents` (audit/db_audit.go): SQL filter, then
`ORDER BY epoch_timestamp_sec ASC`, then the row-scan loop. With the
`idx_org_time` index SQLite returns rows of equal timestamp in rowid
(insertion) order, i.e. the sort is stable; `List.insertionSort` is stable. -/
def ReadAuditEvents (st : State) (orgID startEpochSec endEpochSec : Int) : List AuditEvent :=
  (List.insertionSort rowLe (st.filter (rowMatches orgID startEpochSec endEpochSec))).map toAuditEvent

end DBAuditLogger

/-- The arguments of one `CreateAuditEvent` call, together with the wall-clock
value `now` the store would read for it; used to replay one and the same call
sequence against both backends. -/
structure CreateCall where
  username : String
  actionString : String
  extraMsg : String
  epochTimestampSec : Int
  orgID : Int
  metadata : Option Json
  now : Int
  deriving DecidableEq, Repr

/-- The timestamp actually stored for a call (zero is replaced by `now`). -/
def CreateCall.effectiveTs (c : CreateCall) : Int :=
  if c.epochTimestampSec = 0 then c.now else c.epochTimestampSec

/-- The event the file backend stores for a call. -/
def CreateCall.event (c : CreateCall) : AuditEvent :=
  ⟨c.username, c.actionString, c.extraMsg, c.effectiveTs, c.orgID, c.metadata⟩

/-- The row the relational backend stores for a call. -/
def CreateCall.row (c : CreateCall) : DBRow :=
  ⟨c.username, c.actionString, c.extraMsg, c.effectiveTs, c.orgID, c.metadata⟩

/-- Replaying a call sequence against an (initially given) file state. -/
def FileAuditLogger.replay (st : FileAuditLogger.State) : List CreateCall → FileAuditLogger.State
  | [] => st
  | c :: cs =>
    FileAuditLogger.replay
      (FileAuditLogger.CreateAuditEvent st c.username c.actionString c.extraMsg
        c.epochTimestampSec c.orgID c.metadata c.now) cs

/-- Replaying a call sequence against an (initially given) table state. -/
def DBAuditLogger.replay (st : DBAuditLogger.State) : List CreateCall → DBAuditLogger.State
  | [] => st
  | c :: cs =>
    DBAuditLogger.replay
      (DBAuditLogger.CreateAuditEvent st c.username c.actionString c.extraMsg
        c.epochTimestampSec c.orgID c.metadata c.now) cs

/-! ## Factory / process registry (audit/factory.go)

`loggerInstance` is a Go interface variable. Go interface semantics matter
here: after `loggerInstance, err = NewFileAuditLogger(p)` fails, the variable
holds a non-nil interface wrapping a nil `*FileAuditLogger`, so the
`loggerInstance == nil` check in `GetAuditLogger` no longer fires. -/

/-- The errors produced by the factory and constructors. -/
inductive GoError where
  | filePathMissing
  | dbPathMissing
  | unsupportedLoggerType (t : String)
  | createFileFailed
  | openDBFailed
  | createTableFailed
  | notInitialized
  deriving DecidableEq, Repr

/-- Outcome of the `os.Stat(filePath)` call in `NewFileAuditLogger`. -/
inductive StatResult where
  | statOk
  | notExist
  | otherError
  deriving DecidableEq, Repr

/-- Result of `NewFileAuditLogger`: the returned pointer (`none` models a nil
`*FileAuditLogger`), the returned error, and whether `os.Create` succeeded in
creating the file. -/
structure FileCtorResult where
  logger : Option String
  err : Option GoError
  created : Bool
  deriving DecidableEq, Repr

/-- `NewFileAuditLogger` (audit/audit.go): `os.Stat`; only when the stat error
is "not exist" does it attempt `os.Create`, failing if creation fails. Any
other stat outcome (success, or a stat error that is not "not exist") falls
through to returning a logger with no error. -/
def NewFileAuditLogger (filePath : String) (statRes : StatResult) (createOk : Bool) :
    FileCtorResult :=
  match statRes with
  | .notExist =>
    if createOk then ⟨some filePath, none, true⟩
    else ⟨none, some .createFileFailed, false⟩
  | _ => ⟨some filePath, none, false⟩

/-- `NewDBAuditLogger` (audit/db_audit.go): `sql.Open`, then the
CREATE TABLE / CREATE INDEX exec; either failure returns a nil pointer and an
error. -/
def NewDBAuditLogger (dbPath : String) (openOk : Bool) (execOk : Bool) :
    Option String × Option GoError :=
  if openOk then
    if execOk then (some dbPath, none) else (none, some .createTableFailed)
  else (none, some .openDBFailed)

/-- The value of the package-level `loggerInstance` interface variable.
`nilIface` is the untouched nil interface; `filePtr`/`dbPtr` wrap a pointer,
which may itself be nil (`none`) — a Go interface wrapping a nil pointer is
not equal to `nil`. -/
inductive LoggerIface where
  | nilIface
  | filePtr (p : Option String)
  | dbPtr (p : Option String)
  deriving DecidableEq, Repr

/-- The flat string-keyed config map, restricted to the two recognized keys. -/
structure Config where
  filePath : Option String
  dbPath : Option String
  deriving DecidableEq, Repr

/-- The filesystem/database environment one constructor call runs against. -/
structure CtorEnv where
  statRes : StatResult
  createOk : Bool
  openOk : Bool
  execOk : Bool
  deriving DecidableEq, Repr

/-- `InitAuditLogger` (audit/factory.go). The unknown-kind and missing-key
branches return before touching `loggerInstance`; the constructor branches
execute `loggerInstance, err = New...`, which assigns the returned pointer to
the interface variable even when the constructor fails. -/
def InitAuditLogger (st : LoggerIface) (loggerType : String) (config : Config)
    (env : CtorEnv) : LoggerIface × Option GoError :=
  match loggerType with
  | "file" =>
    match config.filePath with
    | none => (st, some .filePathMissing)
    | some fp =>
      let r := NewFileAuditLogger fp env.statRes env.createOk
      (.filePtr r.logger, r.err)
  | "db" =>
    match config.dbPath with
    | none => (st, some .dbPathMissing)
    | some dp =>
      let r := NewDBAuditLogger dp env.openOk env.execOk
      (.dbPtr r.1, r.2)
  | t => (st, some (.unsupportedLoggerType t))

/-- `GetAuditLogger` (audit/factory.go): `if loggerInstance == nil` — true only
for the genuinely nil interface, not for an interface wrapping a nil pointer. -/
def GetAuditLogger (st : LoggerIface) : Except GoError LoggerIface :=
  if st = .nilIface then .error .notInitialized else .ok st

/-- The arguments and environment of one `InitAuditLogger` call. -/
structure InitCall where
  loggerType : String
  config : Config
  env : CtorEnv
  deriving DecidableEq, Repr

/-- Whether an `InitAuditLogger` call gets past the key checks and actually
invokes a backend constructor. -/
def InitCall.reachesCtor (c : InitCall) : Bool :=
  (c.loggerType == "file" && c.config.filePath.isSome) ||
    (c.loggerType == "db" && c.config.dbPath.isSome)

/-- Replaying a sequence of `InitAuditLogger` calls over the registry state. -/
def replayInit (st : LoggerIface) : List InitCall → LoggerIface
  | [] => st
  | c :: cs => replayInit (InitAuditLogger st c.loggerType c.config c.env).1 cs

/-! ## Recording facade (audit/factory.go) -/

/-- The whole process state the facade operates on: the registry variable and
the persistent contents of the (single) file and database backends. -/
structure AppState where
  logger : LoggerIface
  fileStore : FileAuditLogger.State
  dbStore : DBAuditLogger.State
  deriving DecidableEq, Repr

/-- Outcome of the facade `CreateAuditEvent`: the new state on success, an
error, or a runtime panic from invoking a method on a nil pointer (the state
after a failed backend construction). -/
inductive FacadeWriteResult where
  | ok (st : AppState)
  | err (e : GoError)
  | nilDeref
  deriving DecidableEq, Repr

/-- Outcome of the facade `ReadAuditEvents`. -/
inductive FacadeReadResult where
  | ok (events : List AuditEvent)
  | err (e : GoError)
  | nilDeref
  deriving DecidableEq, Repr

/-- Facade `CreateAuditEvent` (audit/factory.go): `GetAuditLogger`, propagate
its error, otherwise delegate to the active store's method. Calling the
method on a nil pointer panics. -/
def FacadeCreateAuditEvent (st : AppState) (username actionString extraMsg : String)
    (epochTimestampSec orgID : Int) (metadata : Option Json) (now : Int) :
    FacadeWriteResult :=
  match GetAuditLogger st.logger with
  | .error e => .err e
  | .ok iface =>
    match iface with
    | .nilIface => .err .notInitialized
    | .filePtr none => .nilDeref
    | .filePtr (some _) =>
      .ok ⟨st.logger,
        FileAuditLogger.CreateAuditEvent st.fileStore username actionString extraMsg
          epochTimestampSec orgID metadata now,
        st.dbStore⟩
    | .dbPtr none => .nilDeref
    | .dbPtr (some _) =>
      .ok ⟨st.logger, st.fileStore,
        DBAuditLogger.CreateAuditEvent st.dbStore username actionString extraMsg
          epochTimestampSec orgID metadata now⟩

/-- Facade `ReadAuditEvents` (audit/factory.go). -/
def FacadeReadAuditEvents (st : AppState) (orgID startEpochSec endEpochSec : Int) :
    FacadeReadResult :=
  match GetAuditLogger st.logger with
  | .error e => .err e
  | .ok iface =>
    match iface with
    | .nilIface => .err .notInitialized
    | .filePtr none => .nilDeref
    | .filePtr (some _) =>
      .ok (FileAuditLogger.ReadAuditEvents st.fileStore orgID startEpochSec endEpochSec)
    | .dbPtr none => .nilDeref
    | .dbPtr (some _) =>
      .ok (DBAuditLogger.ReadAuditEvents st.dbStore orgID startEpochSec endEpochSec)

/-! ## Request-audit adapter (audit/middleware.go) -/

/-- A context value stored under `AuditOrgIDKey`: absent, of a type other than
`int64`, or an `int64`. -/
inductive CtxOrgValue where
  | absent
  | wrongType
  | int64 (v : Int)
  deriving DecidableEq, Repr

/-- A context value stored under `AuditUserKey`. -/
inductive CtxStrValue where
  | absent
  | wrongType
  | str (s : String)
  deriving DecidableEq, Repr

/-- `getOrgIDFromContext` (audit/middleware.go): the type assertion
`ctx.Value(AuditOrgIDKey).(int64)` yields the value when it is an `int64`,
otherwise the function returns 0. -/
def getOrgIDFromContext : CtxOrgValue → Int
  | .int64 v => v
  | _ => 0

/-- `getUsernameFromContext` (audit/middleware.go). -/
def getUsernameFromContext : CtxStrValue → String
  | .str s => s
  | _ => "unknown"

/-- Character-level model of Go `strings.Split(s, " ")`: split on every
single space, preserving empty fields; the empty string yields one empty
field. -/
def splitOnSpaceChars : List Char → List (List Char)
  | [] => [[]]
  | c :: cs =>
    let r := splitOnSpaceChars cs
    if c = ' ' then [] :: r
    else
      match r with
      | [] => [[c]]
      | f :: rest => (c :: f) :: rest

/-- `strings.Split(s, " ")`. -/
def splitOnSpace (s : String) : List String :=
  (splitOnSpaceChars s.toList).map String.mk

/-- `strings.HasPrefix(s, pre)`. -/
def strStartsWith (s pre : String) : Bool :=
  List.isPrefixOf pre.toList s.toList

/-- `strings.HasSuffix(s, "*")`. -/
def strEndsWithStar (s : String) : Bool :=
  match s.toList.getLast? with
  | some c => c == '*'
  | none => false

/-- `strings.TrimSuffix(s, "*")` under the knowledge that `s` ends in `*`. -/
def dropLastChar (s : String) : String :=
  String.mk s.toList.dropLast

/-- The body of the `for pattern, action := range actionMapping` loop in
`AuditMiddleware`, over one iteration order of the map (Go map iteration
order is unspecified and randomized, so any order of the entries may occur).
Splits the pattern on a space, skips entries that do not split into exactly
two parts, requires the method pattern to be `*` or equal to the method, and
matches the path by prefix when the path pattern ends in `*` (the trailing
`*` trimmed), else by equality. The loop breaks at the first match; when no
entry matches, `actionString` is left empty. -/
def lookupAction (method path : String) : List (String × String) → String
  | [] => ""
  | (pattern, action) :: rest =>
    match splitOnSpace pattern with
    | [methodPattern, pathPattern] =>
      if methodPattern ≠ "*" ∧ methodPattern ≠ method then
        lookupAction method path rest
      else if strEndsWithStar pathPattern then
        if strStartsWith path (dropLastChar pathPattern) then action
        else lookupAction method path rest
      else if pathPattern = path then action
      else lookupAction method path rest
    | _ => lookupAction method path rest

/-- Whether one mapping entry matches a request, i.e. whether the loop body
would select it: the pattern splits into exactly a method pattern and a path
pattern, the method pattern is `*` or the request method, and the path
pattern matches the path (by prefix for a trailing `*`, else exactly). -/
def entryMatches (method path : String) (entry : String × String) : Bool :=
  match splitOnSpace entry.1 with
  | [methodPattern, pathPattern] =>
    (methodPattern == "*" || methodPattern == method) &&
      (if strEndsWithStar pathPattern then strStartsWith path (dropLastChar pathPattern)
       else pathPattern == path)
  | _ => false

/-- The action label the middleware logs: the loop result, or the generic
`fmt.Sprintf("%s request to %s", method, path)` when it is empty. -/
def middlewareActionString (actionMapping : List (String × String))
    (method path : String) : String :=
  let a := lookupAction method path actionMapping
  if a = "" then method ++ " request to " ++ path else a

/-- The request attributes the middleware reads. -/
structure RequestInfo where
  method : String
  path : String
  requestURI : String
  userAgent : String
  remoteAddr : String
  deriving DecidableEq, Repr

/-- The metadata map built in `AuditMiddleware`. -/
def middlewareMetadata (req : RequestInfo) (statusCode durationMs : Int) : Json :=
  .objCons "requestURI" (.str req.requestURI)
    (.objCons "userAgent" (.str req.userAgent)
      (.objCons "remoteAddr" (.str req.remoteAddr)
        (.objCons "statusCode" (.num statusCode)
          (.objCons "durationMs" (.num durationMs) .objNil))))

/-- The `CreateAuditEvent` call `AuditMiddleware` submits after the handler
completes: username and org id from the context (with their fallbacks), the
mapped action string, an extra message with status and duration, the current
time as timestamp, and the request metadata. The call is made regardless of
the context contents, and its error is discarded. -/
def middlewareCreateCall (actionMapping : List (String × String)) (req : RequestInfo)
    (userCtx : CtxStrValue) (orgCtx : CtxOrgValue) (statusCode durationMs : Int)
    (durationStr : String) (now : Int) : CreateCall :=
  ⟨getUsernameFromContext userCtx,
    middlewareActionString actionMapping req.method req.path,
    "Status: " ++ toString statusCode ++ ", Duration: " ++ durationStr,
    now,
    getOrgIDFromContext orgCtx,
    some (middlewareMetadata req statusCode durationMs),
    now⟩

/-- The `AuditEvent` the middleware's `CreateAuditEvent` call stores. -/
def middlewareLoggedEvent (actionMapping : List (String × String)) (req : RequestInfo)
    (userCtx : CtxStrValue) (orgCtx : CtxOrgValue) (statusCode durationMs : Int)
    (durationStr : String) (now : Int) : AuditEvent :=
  (middlewareCreateCall actionMapping req userCtx orgCtx statusCode durationMs
    durationStr now).event

/-! ## Helper definitions and lemmas -/

/-- The parse result of one stored line (`json.Unmarshal` on the line). -/
def FileLine.parsed : FileLine → Option AuditEvent
  | .ok e => some e
  | .bad _ => none

/-- All events stored in parseable lines of the file, in file order. -/
def FileAuditLogger.storedEvents (st : FileAuditLogger.State) : List AuditEvent :=
  st.filterMap FileLine.parsed

theorem fileRead_eq_filter (st : FileAuditLogger.State) (o s e : Int) :
    FileAuditLogger.ReadAuditEvents st o s e =
      (FileAuditLogger.storedEvents st).filter (FileAuditLogger.eventMatches o s e) := by
  induction st with
  | nil => rfl
  | cons l rest ih =>
    cases l with
    | ok ev =>
      by_cases h : FileAuditLogger.eventMatches o s e ev <;>
        simp [FileAuditLogger.ReadAuditEvents, FileAuditLogger.storedEvents, FileLine.parsed,
          List.filterMap_cons, List.filter_cons, h, ih]
    | bad raw =>
      simp [FileAuditLogger.ReadAuditEvents, FileAuditLogger.storedEvents, FileLine.parsed,
        List.filterMap_cons, ih]

theorem dbRead_mem_iff (st : DBAuditLogger.State) (o s e : Int) (ev : AuditEvent) :
    ev ∈ DBAuditLogger.ReadAuditEvents st o s e ↔
      ∃ r : DBRow, r ∈ st ∧ DBAuditLogger.rowMatches o s e r = true ∧
        DBAuditLogger.toAuditEvent r = ev := by
  unfold DBAuditLogger.ReadAuditEvents
  rw [List.mem_map]
  constructor
  · rintro ⟨r, hr, rfl⟩
    have hmem := (List.perm_insertionSort DBAuditLogger.rowLe _).mem_iff.mp hr
    rw [List.mem_filter] at hmem
    exact ⟨r, hmem.1, hmem.2, rfl⟩
  · rintro ⟨r, hst, hm, rfl⟩
    exact ⟨r, (List.perm_insertionSort DBAuditLogger.rowLe _).mem_iff.mpr
      (List.mem_filter.mpr ⟨hst, hm⟩), rfl⟩

theorem fileReplay_eq (calls : List CreateCall) :
    ∀ st, FileAuditLogger.replay st calls = st ++ calls.map (fun c => FileLine.ok c.event) := by
  induction calls with
  | nil => intro st; simp [FileAuditLogger.replay]
  | cons c cs ih =>
    intro st
    simp [FileAuditLogger.replay, FileAuditLogger.CreateAuditEvent, ih, CreateCall.event,
      CreateCall.effectiveTs]

theorem dbReplay_eq (calls : List CreateCall) :
    ∀ st, DBAuditLogger.replay st calls = st ++ calls.map CreateCall.row := by
  induction calls with
  | nil => intro st; simp [DBAuditLogger.replay]
  | cons c cs ih =>
    intro st
    simp [DBAuditLogger.replay, DBAuditLogger.CreateAuditEvent, ih, CreateCall.row,
      CreateCall.effectiveTs]

theorem dbRead_pairwise_le (st : DBAuditLogger.State) (o s e : Int) :
    (DBAuditLogger.ReadAuditEvents st o s e).Pairwise
      (fun a b => a.EpochTimestampSec ≤ b.EpochTimestampSec) :=
  List.Pairwise.map _ (fun _ _ h => h)
    (List.sorted_insertionSort DBAuditLogger.rowLe _)

theorem eventMatches_eq_rowMatches (o s e : Int) (he : 0 ≤ e) (c : CreateCall) :
    FileAuditLogger.eventMatches o s e c.event = DBAuditLogger.rowMatches o s e c.row := by
  rcases lt_or_eq_of_le he with h | h
  · have h0 : (e == 0) = false := by
      rw [beq_eq_false_iff_ne]
      omega
    simp [FileAuditLogger.eventMatches, DBAuditLogger.rowMatches, CreateCall.event,
      CreateCall.row, h, h0]
  · simp [FileAuditLogger.eventMatches, DBAuditLogger.rowMatches, CreateCall.event,
      CreateCall.row, ← h]

theorem storedEvents_map_ok (calls : List CreateCall) :
    FileAuditLogger.storedEvents (calls.map (fun c => FileLine.ok c.event)) =
      calls.map CreateCall.event := by
  unfold FileAuditLogger.storedEvents
  rw [List.filterMap_map]
  exact congrFun (List.filterMap_eq_map _) calls

theorem toAuditEvent_row (c : CreateCall) :
    DBAuditLogger.toAuditEvent c.row = c.event := rfl

/-! ## Claims -/

/-- C1: for every valid record `r` (one whose `occurred_at` is set, i.e.
non-zero, so the store does not substitute the current time), appending `r`'s
fields with `CreateAuditEvent` and then querying with `r`'s `tenant_id` and a
time range containing `r`'s `occurred_at` (`start ≤ occurred_at` and
`end = 0` or `occurred_at ≤ end`) returns a record equal to `r` in all
fields, metadata included (compared structurally, as JSON values); this holds
for the file backend and for the relational backend, over any prior store
contents. -/
theorem C1_roundTrip (fileSt : FileAuditLogger.State) (dbSt : DBAuditLogger.State)
    (r : AuditEvent) (startEpochSec endEpochSec now : Int)
    (hts : r.EpochTimestampSec ≠ 0)
    (hstart : startEpochSec ≤ r.EpochTimestampSec)
    (hend : endEpochSec = 0 ∨ r.EpochTimestampSec ≤ endEpochSec) :
    r ∈ FileAuditLogger.ReadAuditEvents
        (FileAuditLogger.CreateAuditEvent fileSt r.Username r.ActionString r.ExtraMsg
          r.EpochTimestampSec r.OrgID r.Metadata now) r.OrgID startEpochSec endEpochSec ∧
      r ∈ DBAuditLogger.ReadAuditEvents
        (DBAuditLogger.CreateAuditEvent dbSt r.Username r.ActionString r.ExtraMsg
          r.EpochTimestampSec r.OrgID r.Metadata now) r.OrgID startEpochSec endEpochSec := by
  have hmatch : FileAuditLogger.eventMatches r.OrgID startEpochSec endEpochSec r = true := by
    unfold FileAuditLogger.eventMatches
    rcases hend with h | h
    · subst h; simp [hstart]
    · simp [hstart, h]
  have hrowMatch : DBAuditLogger.rowMatches r.OrgID startEpochSec endEpochSec
      ⟨r.Username, r.ActionString, r.ExtraMsg, r.EpochTimestampSec, r.OrgID, r.Metadata⟩ = true := by
    unfold DBAuditLogger.rowMatches
    rcases hend with h | h
    · subst h; simp [hstart]
    · by_cases hpos : 0 < endEpochSec <;> simp [hstart, h, hpos]
  constructor
  · rw [fileRead_eq_filter, List.mem_filter]
    refine ⟨?_, hmatch⟩
    unfold FileAuditLogger.CreateAuditEvent FileAuditLogger.storedEvents
    simp only [List.filterMap_append, List.mem_append]
    right
    simp [FileLine.parsed, if_neg hts]
  · rw [dbRead_mem_iff]
    refine ⟨⟨r.Username, r.ActionString, r.ExtraMsg, r.EpochTimestampSec, r.OrgID, r.Metadata⟩,
      ?_, hrowMatch, rfl⟩
    unfold DBAuditLogger.CreateAuditEvent
    simp [if_neg hts]

theorem C1_roundTrip_witness :
    (⟨"bob", "Dashboard created", "x", 60, 123,
        some (Json.objCons "dashboardId" (.str "dash-123") .objNil)⟩ : AuditEvent) ∈
      FileAuditLogger.ReadAuditEvents
        (FileAuditLogger.CreateAuditEvent [] "bob" "Dashboard created" "x" 60 123
          (some (Json.objCons "dashboardId" (.str "dash-123") .objNil)) 99) 123 30 90 ∧
    (⟨"bob", "Dashboard created", "x", 60, 123,
        some (Json.objCons "dashboardId" (.str "dash-123") .objNil)⟩ : AuditEvent) ∈
      DBAuditLogger.ReadAuditEvents
        (DBAuditLogger.CreateAuditEvent [] "bob" "Dashboard created" "x" 60 123
          (some (Json.objCons "dashboardId" (.str "dash-123") .objNil)) 99) 123 30 90 :=
  C1_roundTrip [] []
    ⟨"bob", "Dashboard created", "x", 60, 123,
      some (Json.objCons "dashboardId" (.str "dash-123") .objNil)⟩
    30 90 99 (by decide) (by decide) (Or.inr (by decide))

/-- C2 counterexample: the two backends do not have identical read semantics.
With appends of non-monotonic timestamps (tenant 1, timestamps 10 then 5) the
file backend returns the records in append order while the relational
backend returns them sorted ascending; and for a negative `end` (-1) the
file backend applies `occurred_at ≤ -1` (returning nothing) while the
relational backend omits the upper bound (returning the record). -/
theorem C2_counterexample :
    (FileAuditLogger.ReadAuditEvents
        (FileAuditLogger.replay [] [⟨"alice", "a", "", 10, 1, none, 99⟩,
          ⟨"bob", "b", "", 5, 1, none, 99⟩]) 1 0 0 ≠
      DBAuditLogger.ReadAuditEvents
        (DBAuditLogger.replay [] [⟨"alice", "a", "", 10, 1, none, 99⟩,
          ⟨"bob", "b", "", 5, 1, none, 99⟩]) 1 0 0) ∧
    (FileAuditLogger.ReadAuditEvents
        (FileAuditLogger.replay [] [⟨"carol", "c", "", 5, 1, none, 99⟩]) 1 0 (-1) ≠
      DBAuditLogger.ReadAuditEvents
        (DBAuditLogger.replay [] [⟨"carol", "c", "", 5, 1, none, 99⟩]) 1 0 (-1)) := by
  decide

/-- C2 (amended): the two backends return the same sequence of records for
every common sequence of `CreateAuditEvent` calls and every subsequent
`ReadAuditEvents(orgID, start, end)` call, provided `end` is zero or positive
and the effective timestamps of the appends are nondecreasing. (The
counterexample shows both provisos are necessary: a negative `end` is an
inclusive upper bound for the file backend but means "no upper bound" for
the relational backend, and the relational backend sorts by `occurred_at`
while the file backend returns append order.) -/
theorem C2_amended (calls : List CreateCall) (o s e : Int) (he : 0 ≤ e)
    (hmono : calls.Pairwise (fun a b => a.effectiveTs ≤ b.effectiveTs)) :
    FileAuditLogger.ReadAuditEvents (FileAuditLogger.replay [] calls) o s e =
      DBAuditLogger.ReadAuditEvents (DBAuditLogger.replay [] calls) o s e := by
  rw [fileRead_eq_filter, fileReplay_eq, dbReplay_eq, List.nil_append, List.nil_append,
    storedEvents_map_ok]
  unfold DBAuditLogger.ReadAuditEvents
  rw [List.filter_map, List.filter_map]
  have hpred : (FileAuditLogger.eventMatches o s e ∘ CreateCall.event) =
      (DBAuditLogger.rowMatches o s e ∘ CreateCall.row) :=
    funext fun c => eventMatches_eq_rowMatches o s e he c
  rw [hpred]
  have hsorted : List.Sorted DBAuditLogger.rowLe
      ((calls.filter (DBAuditLogger.rowMatches o s e ∘ CreateCall.row)).map CreateCall.row) := by
    refine List.Pairwise.map CreateCall.row (fun a b h => h) ?_
    exact List.Pairwise.filter _ hmono
  rw [List.Sorted.insertionSort_eq hsorted, List.map_map]
  rfl

theorem C2_amended_witness :
    FileAuditLogger.ReadAuditEvents
        (FileAuditLogger.replay [] [⟨"alice", "a", "", 5, 1, none, 99⟩,
          ⟨"bob", "b", "", 10, 1, none, 99⟩]) 1 0 0 =
      DBAuditLogger.ReadAuditEvents
        (DBAuditLogger.replay [] [⟨"alice", "a", "", 5, 1, none, 99⟩,
          ⟨"bob", "b", "", 10, 1, none, 99⟩]) 1 0 0 :=
  C2_amended [⟨"alice", "a", "", 5, 1, none, 99⟩, ⟨"bob", "b", "", 10, 1, none, 99⟩]
    1 0 0 (by decide) (by decide)

/-- C3 counterexample: the file backend does not return query results
strictly ascending by `occurred_at` regardless of append order — appending
records of one tenant with distinct timestamps 10 then 5 and querying the
tenant returns them in append order [10, 5], which is not ascending. -/
theorem C3_counterexample :
    ¬ (FileAuditLogger.ReadAuditEvents
        (FileAuditLogger.replay [] [⟨"alice", "a", "", 10, 1, none, 99⟩,
          ⟨"bob", "b", "", 5, 1, none, 99⟩]) 1 0 0).Pairwise
        (fun a b => a.EpochTimestampSec < b.EpochTimestampSec) := by
  decide

/-- C3 (amended): for stored records with pairwise-distinct effective
timestamps, the relational backend returns query results strictly ascending
by `occurred_at` regardless of append order; the file backend returns them
strictly ascending only under the additional assumption that the records
were appended in nondecreasing timestamp order (it returns append order). -/
theorem C3_amended (calls : List CreateCall) (o s e : Int)
    (hdist : calls.Pairwise (fun a b => a.effectiveTs ≠ b.effectiveTs)) :
    (DBAuditLogger.ReadAuditEvents (DBAuditLogger.replay [] calls) o s e).Pairwise
        (fun a b => a.EpochTimestampSec < b.EpochTimestampSec) ∧
      (calls.Pairwise (fun a b => a.effectiveTs ≤ b.effectiveTs) →
        (FileAuditLogger.ReadAuditEvents (FileAuditLogger.replay [] calls) o s e).Pairwise
          (fun a b => a.EpochTimestampSec < b.EpochTimestampSec)) := by
  constructor
  · have hle := dbRead_pairwise_le (DBAuditLogger.replay [] calls) o s e
    have hne : (DBAuditLogger.ReadAuditEvents (DBAuditLogger.replay [] calls) o s e).Pairwise
        (fun a b => a.EpochTimestampSec ≠ b.EpochTimestampSec) := by
      rw [dbReplay_eq, List.nil_append]
      unfold DBAuditLogger.ReadAuditEvents
      refine List.Pairwise.map DBAuditLogger.toAuditEvent (fun a b h => h) ?_
      refine ((List.perm_insertionSort DBAuditLogger.rowLe _).pairwise_iff
        (fun h => Ne.symm h)).mpr ?_
      exact List.Pairwise.filter _ (List.Pairwise.map CreateCall.row (fun a b h => h) hdist)
    exact (hle.and hne).imp (fun h => lt_of_le_of_ne h.1 h.2)
  · intro hmono
    rw [fileRead_eq_filter, fileReplay_eq, List.nil_append, storedEvents_map_ok]
    apply List.Pairwise.filter
    refine List.Pairwise.map CreateCall.event (fun a b h => h) ?_
    exact (hmono.and hdist).imp (fun h => lt_of_le_of_ne h.1 h.2)

/-- C4 counterexample: the claimed filter condition is wrong for the
relational backend at a negative `end`. The stored record with
`occurred_at = 5` is returned by `ReadAuditEvents(1, 0, -1)` although the
claim's condition (`end = 0` or `occurred_at ≤ end`) does not hold. -/
theorem C4_counterexample :
    DBAuditLogger.toAuditEvent ⟨"a", "b", "c", 5, 1, none⟩ ∈
        DBAuditLogger.ReadAuditEvents [⟨"a", "b", "c", 5, 1, none⟩] 1 0 (-1) ∧
      ¬ ((-1 : Int) = 0 ∨
        (DBAuditLogger.toAuditEvent ⟨"a", "b", "c", 5, 1, none⟩).EpochTimestampSec ≤ -1) := by
  decide

/-- C4 (amended): a stored record is returned by `ReadAuditEvents(orgID,
start, end)` iff its `tenant_id` equals `orgID` exactly and
`start ≤ occurred_at`, and — for the file backend — `end = 0` (no upper
bound) or `occurred_at ≤ end`; for the relational backend the upper bound is
instead applied only when `end > 0`, i.e. every `end ≤ 0` (not only `end = 0`)
means "no upper bound". Both bounds are inclusive. -/
theorem C4_amended (st : FileAuditLogger.State) (st' : DBAuditLogger.State)
    (o s e : Int) (ev : AuditEvent) :
    (ev ∈ FileAuditLogger.ReadAuditEvents st o s e ↔
      ev ∈ FileAuditLogger.storedEvents st ∧ ev.OrgID = o ∧ s ≤ ev.EpochTimestampSec ∧
        (e = 0 ∨ ev.EpochTimestampSec ≤ e)) ∧
    (ev ∈ DBAuditLogger.ReadAuditEvents st' o s e ↔
      ∃ r, r ∈ st' ∧ DBAuditLogger.toAuditEvent r = ev ∧ ev.OrgID = o ∧
        s ≤ ev.EpochTimestampSec ∧ (e ≤ 0 ∨ ev.EpochTimestampSec ≤ e)) := by
  constructor
  · rw [fileRead_eq_filter, List.mem_filter]
    unfold FileAuditLogger.eventMatches
    simp [and_assoc]
  · rw [dbRead_mem_iff]
    constructor
    · rintro ⟨r, hr, hm, rfl⟩
      unfold DBAuditLogger.rowMatches at hm
      simp only [Bool.and_eq_true, beq_iff_eq, decide_eq_true_eq] at hm
      refine ⟨r, hr, rfl, hm.1.1, hm.1.2, ?_⟩
      by_cases hpos : 0 < e
      · right
        have h2 := hm.2
        rw [if_pos hpos] at h2
        simpa using h2
      · left
        omega
    · rintro ⟨r, hr, rfl, ho, hs, hup⟩
      refine ⟨r, hr, ?_, rfl⟩
      unfold DBAuditLogger.rowMatches
      simp only [Bool.and_eq_true, beq_iff_eq, decide_eq_true_eq]
      refine ⟨⟨ho, hs⟩, ?_⟩
      by_cases hpos : 0 < e
      · rw [if_pos hpos]
        rcases hup with h | h
        · exfalso; omega
        · simpa using h
      · rw [if_neg hpos]

/-- C5: the claim is right and the code is wrong. When a backend constructor
fails, `InitAuditLogger` executes `loggerInstance, err = NewFileAuditLogger(...)`,
which overwrites the currently active store with the constructor's nil
pointer (wrapped in a non-nil interface) even though an error is returned.
Evaluated at a concrete failing input: the active store is a working file
logger, a re-initialization's file creation fails; the call errors, yet the
active store is replaced, and the next facade call dereferences a nil
pointer instead of using the previous store. -/
theorem C5_initFailureClobbersStore :
    (InitAuditLogger (.filePtr (some "old.log")) "file" ⟨some "new.log", none⟩
        ⟨.notExist, false, true, true⟩).2 = some .createFileFailed ∧
      (InitAuditLogger (.filePtr (some "old.log")) "file" ⟨some "new.log", none⟩
        ⟨.notExist, false, true, true⟩).1 ≠ .filePtr (some "old.log") ∧
      FacadeCreateAuditEvent
        ⟨(InitAuditLogger (.filePtr (some "old.log")) "file" ⟨some "new.log", none⟩
          ⟨.notExist, false, true, true⟩).1, [], []⟩ "u" "a" "m" 5 1 none 9 = .nilDeref := by
  decide

/-- C6 counterexample: an `InitAuditLogger` call whose backend construction
fails is not successful (it returns an error), yet afterwards
`GetAuditLogger` no longer fails with the "not initialized" error: the
registry holds a non-nil interface wrapping the constructor's nil pointer. -/
theorem C6_counterexample :
    (InitAuditLogger .nilIface "file" ⟨some "p", none⟩
        ⟨.notExist, false, true, true⟩).2.isSome = true ∧
      GetAuditLogger (replayInit .nilIface
        [⟨"file", ⟨some "p", none⟩, ⟨.notExist, false, true, true⟩⟩]) =
        .ok (.filePtr none) :=
  ⟨rfl, rfl⟩

theorem initAuditLogger_preserves (st : LoggerIface) (c : InitCall)
    (h : c.reachesCtor = false) :
    (InitAuditLogger st c.loggerType c.config c.env).1 = st := by
  obtain ⟨lt, cfg, env⟩ := c
  simp only [InitCall.reachesCtor] at h
  unfold InitAuditLogger
  split
  · rename_i heq
    have heq2 : lt = "file" := heq
    cases hfp : cfg.filePath with
    | none => simp [hfp]
    | some fp =>
      exfalso
      rw [heq2, hfp] at h
      simp at h
  · rename_i heq
    have heq2 : lt = "db" := heq
    cases hdp : cfg.dbPath with
    | none => simp [hdp]
    | some dp =>
      exfalso
      rw [heq2, hdp] at h
      simp at h
  · rfl

/-- C6 (amended): before any `InitAuditLogger` call that reaches backend
construction — i.e. when every prior call failed with an unknown backend
kind or a missing required config key (in particular, before any call at
all) — `GetAuditLogger` fails with the distinct "not initialized" error, and
both facade operations surface that same error to the caller, persisting and
returning nothing. (The counterexample shows the original claim's proviso
"before any successful call" is not enough: a call that fails inside the
backend constructor replaces the registry contents.) -/
theorem C6_amended (trace : List InitCall)
    (h : ∀ c ∈ trace, c.reachesCtor = false)
    (fs : FileAuditLogger.State) (ds : DBAuditLogger.State)
    (username actionString extraMsg : String) (ts oid now o s e : Int)
    (md : Option Json) :
    replayInit .nilIface trace = .nilIface ∧
      GetAuditLogger (replayInit .nilIface trace) = .error .notInitialized ∧
      FacadeCreateAuditEvent ⟨replayInit .nilIface trace, fs, ds⟩ username actionString
        extraMsg ts oid md now = .err .notInitialized ∧
      FacadeReadAuditEvents ⟨replayInit .nilIface trace, fs, ds⟩ o s e =
        .err .notInitialized := by
  have hnil : ∀ (st : LoggerIface) (tr : List InitCall),
      (∀ c ∈ tr, c.reachesCtor = false) → replayInit st tr = st := by
    intro st tr
    induction tr generalizing st with
    | nil => intro _; rfl
    | cons c cs ih =>
      intro hall
      unfold replayInit
      rw [initAuditLogger_preserves st c (hall c (List.mem_cons_self _ _))]
      exact ih st fun q hq => hall q (List.mem_cons_of_mem _ hq)
  have h0 : replayInit .nilIface trace = .nilIface := hnil _ trace h
  refine ⟨h0, ?_, ?_, ?_⟩
  · rw [h0]; rfl
  · rw [h0]; rfl
  · rw [h0]; rfl

theorem C6_amended_witness :
    replayInit .nilIface
        [⟨"bogus", ⟨none, none⟩, ⟨.statOk, true, true, true⟩⟩,
          ⟨"file", ⟨none, none⟩, ⟨.statOk, true, true, true⟩⟩] = .nilIface ∧
      GetAuditLogger (replayInit .nilIface
        [⟨"bogus", ⟨none, none⟩, ⟨.statOk, true, true, true⟩⟩,
          ⟨"file", ⟨none, none⟩, ⟨.statOk, true, true, true⟩⟩]) = .error .notInitialized ∧
      FacadeCreateAuditEvent
        ⟨replayInit .nilIface
          [⟨"bogus", ⟨none, none⟩, ⟨.statOk, true, true, true⟩⟩,
            ⟨"file", ⟨none, none⟩, ⟨.statOk, true, true, true⟩⟩], [], []⟩
        "u" "a" "m" 5 1 none 9 = .err .notInitialized ∧
      FacadeReadAuditEvents
        ⟨replayInit .nilIface
          [⟨"bogus", ⟨none, none⟩, ⟨.statOk, true, true, true⟩⟩,
            ⟨"file", ⟨none, none⟩, ⟨.statOk, true, true, true⟩⟩], [], []⟩ 1 0 0 =
        .err .notInitialized :=
  C6_amended
    [⟨"bogus", ⟨none, none⟩, ⟨.statOk, true, true, true⟩⟩,
      ⟨"file", ⟨none, none⟩, ⟨.statOk, true, true, true⟩⟩]
    (by decide) [] [] "u" "a" "m" 5 1 9 1 0 0 none

theorem lookupAction_cons (method path p a : String) (rest : List (String × String)) :
    lookupAction method path ((p, a) :: rest) =
      if entryMatches method path (p, a) then a else lookupAction method path rest := by
  cases hsp : splitOnSpace p with
  | nil => simp only [lookupAction, entryMatches, hsp]; simp
  | cons mp tl =>
    cases tl with
    | nil => simp only [lookupAction, entryMatches, hsp]; simp
    | cons pp tl2 =>
      cases tl2 with
      | cons x xs => simp only [lookupAction, entryMatches, hsp]; simp
      | nil =>
        simp only [lookupAction, entryMatches, hsp]
        by_cases hm1 : mp = "*" <;> by_cases hm2 : mp = method <;>
          by_cases hstar : strEndsWithStar pp <;>
          by_cases hpre : strStartsWith path (dropLastChar pp) <;>
          by_cases hpp : pp = path <;>
          simp_all

theorem lookupAction_of_no_match (method path : String)
    (mapping : List (String × String))
    (h : ∀ q ∈ mapping, entryMatches method path q = false) :
    lookupAction method path mapping = "" := by
  induction mapping with
  | nil => rfl
  | cons q rest ih =>
    obtain ⟨p, a⟩ := q
    rw [lookupAction_cons, if_neg]
    · exact ih fun q hq => h q (List.mem_cons_of_mem _ hq)
    · simp [h (p, a) (List.mem_cons_self _ _)]

/-- C7 counterexample: the action mapping contains an entry matching the
request `GET /api/x` exactly and a trailing-wildcard entry whose prefix also
matches; in the iteration order that lists the wildcard entry first (an
order Go's randomized map iteration can produce), the adapter selects the
wildcard entry's label, not the exact entry's. -/
theorem C7_counterexample :
    entryMatches "GET" "/api/x" ("GET /api/x", "exact") = true ∧
      entryMatches "GET" "/api/x" ("GET /api/*", "wild") = true ∧
      middlewareActionString [("GET /api/*", "wild"), ("GET /api/x", "exact")]
        "GET" "/api/x" = "wild" := by
  decide

/-- C7 (amended): the adapter's matching has no exact-over-wildcard priority;
it selects the first matching entry in the (unspecified) map iteration
order: whenever every entry before some entry fails to match and that entry
matches (exactly or by wildcard prefix) with a non-empty action label, that
entry's label is selected; and whenever no entry of the mapping matches, the
generic label `"<method> request to <path>"` is synthesized. -/
theorem C7_amended (method path : String) (pre post : List (String × String))
    (pattern action : String)
    (hpre : ∀ q ∈ pre, entryMatches method path q = false)
    (hmatch : entryMatches method path (pattern, action) = true)
    (hact : action ≠ "") :
    middlewareActionString (pre ++ (pattern, action) :: post) method path = action ∧
      ∀ (mapping : List (String × String)),
        (∀ q ∈ mapping, entryMatches method path q = false) →
        middlewareActionString mapping method path =
          method ++ " request to " ++ path := by
  constructor
  · have hsel : lookupAction method path (pre ++ (pattern, action) :: post) = action := by
      induction pre with
      | nil =>
        rw [List.nil_append, lookupAction_cons, if_pos]
        simp [hmatch]
      | cons q rest ih =>
        obtain ⟨p₁, a₁⟩ := q
        rw [List.cons_append, lookupAction_cons, if_neg]
        · exact ih fun q hq => hpre q (List.mem_cons_of_mem _ hq)
        · simp [hpre (p₁, a₁) (List.mem_cons_self _ _)]
    unfold middlewareActionString
    rw [hsel, if_neg hact]
  · intro mapping hnone
    unfold middlewareActionString
    rw [lookupAction_of_no_match method path mapping hnone]
    rfl

theorem C7_amended_witness :
    middlewareActionString [("POST /y", "other"), ("GET /api/x", "exact")]
        "GET" "/api/x" = "exact" ∧
      ∀ (mapping : List (String × String)),
        (∀ q ∈ mapping, entryMatches "GET" "/api/x" q = false) →
        middlewareActionString mapping "GET" "/api/x" = "GET request to /api/x" :=
  C7_amended "GET" "/api/x" [("POST /y", "other")] [] "GET /api/x" "exact"
    (by decide) (by decide) (by decide)

/-- C8: during a file-backend `ReadAuditEvents` scan every line that fails to
parse is silently skipped and never aborts the scan: for any file contents,
the query returns exactly the parseable records that match the filter, in
file order; and removing a malformed line from anywhere in the file leaves
the query result unchanged. -/
theorem C8_corruptionTolerance (o s e : Int) :
    (∀ (st : FileAuditLogger.State),
      FileAuditLogger.ReadAuditEvents st o s e =
        (st.filterMap FileLine.parsed).filter (FileAuditLogger.eventMatches o s e)) ∧
      (∀ (pre post : FileAuditLogger.State) (raw : String),
        FileAuditLogger.ReadAuditEvents (pre ++ FileLine.bad raw :: post) o s e =
          FileAuditLogger.ReadAuditEvents (pre ++ post) o s e) := by
  constructor
  · exact fun st => fileRead_eq_filter st o s e
  · intro pre post raw
    rw [fileRead_eq_filter, fileRead_eq_filter]
    unfold FileAuditLogger.storedEvents
    simp [List.filterMap_append, List.filterMap_cons, FileLine.parsed]

/-- C9 counterexample: when `os.Stat` fails with an error other than
"not exist" (a file that cannot be stat'd), `NewFileAuditLogger` does not
return an error as the claim requires — `os.IsNotExist` is false for such an
error, so the code falls through and returns a logger successfully. -/
theorem C9_counterexample :
    (NewFileAuditLogger "audit.log" .otherError false).err = none ∧
      (NewFileAuditLogger "audit.log" .otherError false).logger = some "audit.log" := by
  decide

/-- C9 (amended): `NewFileAuditLogger` creates the target file exactly when
`os.Stat` reports it absent (and creation succeeds); it fails only when the
stat reports the file absent and creation fails; in every other case —
including a stat failure that is not "not exist" — it succeeds and returns a
logger. -/
theorem C9_amended (fp : String) (statRes : StatResult) (createOk : Bool) :
    ((NewFileAuditLogger fp statRes createOk).err = none ↔
      (statRes ≠ .notExist ∨ createOk = true)) ∧
      ((NewFileAuditLogger fp statRes createOk).logger = some fp ↔
        (statRes ≠ .notExist ∨ createOk = true)) ∧
      ((NewFileAuditLogger fp statRes createOk).created = true ↔
        (statRes = .notExist ∧ createOk = true)) := by
  cases statRes <;> cases createOk <;> simp [NewFileAuditLogger]

/-- C10: when the request context carries no tenant id under `AuditOrgIDKey`
(or a value that is not an `int64`), `getOrgIDFromContext` yields 0 and the
adapter still records the event, with `tenant_id` 0; such an event is
returned by queries for tenant 0 (over any prior store contents and any time
range containing it, on both backends) and is never returned by a query for
any non-zero tenant. -/
theorem C10_missingTenantLogsAsZero (actionMapping : List (String × String))
    (req : RequestInfo) (userCtx : CtxStrValue) (orgCtx : CtxOrgValue)
    (statusCode durationMs : Int) (durationStr : String) (now s e t : Int)
    (hctx : orgCtx = .absent ∨ orgCtx = .wrongType) :
    getOrgIDFromContext orgCtx = 0 ∧
      (middlewareLoggedEvent actionMapping req userCtx orgCtx statusCode durationMs
        durationStr now).OrgID = 0 ∧
      (∀ (fs : FileAuditLogger.State) (ds : DBAuditLogger.State),
        s ≤ now → (e = 0 ∨ now ≤ e) →
        middlewareLoggedEvent actionMapping req userCtx orgCtx statusCode durationMs
            durationStr now ∈
          FileAuditLogger.ReadAuditEvents
            (FileAuditLogger.replay fs [middlewareCreateCall actionMapping req userCtx
              orgCtx statusCode durationMs durationStr now]) 0 s e ∧
        middlewareLoggedEvent actionMapping req userCtx orgCtx statusCode durationMs
            durationStr now ∈
          DBAuditLogger.ReadAuditEvents
            (DBAuditLogger.replay ds [middlewareCreateCall actionMapping req userCtx
              orgCtx statusCode durationMs durationStr now]) 0 s e) ∧
      (t ≠ 0 → ∀ (fs : FileAuditLogger.State) (ds : DBAuditLogger.State),
        middlewareLoggedEvent actionMapping req userCtx orgCtx statusCode durationMs
            durationStr now ∉ FileAuditLogger.ReadAuditEvents fs t s e ∧
        middlewareLoggedEvent actionMapping req userCtx orgCtx statusCode durationMs
            durationStr now ∉ DBAuditLogger.ReadAuditEvents ds t s e) := by
  have horg : getOrgIDFromContext orgCtx = 0 := by
    rcases hctx with h | h <;> subst h <;> rfl
  have hOrg : (middlewareLoggedEvent actionMapping req userCtx orgCtx statusCode
      durationMs durationStr now).OrgID = 0 := by
    unfold middlewareLoggedEvent middlewareCreateCall CreateCall.event
    exact horg
  have hts : (middlewareLoggedEvent actionMapping req userCtx orgCtx statusCode
      durationMs durationStr now).EpochTimestampSec = now := by
    unfold middlewareLoggedEvent middlewareCreateCall CreateCall.event CreateCall.effectiveTs
    simp
  refine ⟨horg, hOrg, ?_, ?_⟩
  · intro fs ds hs he
    constructor
    · rw [fileRead_eq_filter, List.mem_filter]
      constructor
      · rw [fileReplay_eq]
        unfold FileAuditLogger.storedEvents
        simp only [List.filterMap_append, List.mem_append, List.map_cons, List.map_nil,
          List.filterMap_cons, FileLine.parsed, List.filterMap_nil, List.mem_singleton]
        right
        rfl
      · unfold FileAuditLogger.eventMatches
        rcases he with h | h
        · subst h; simp [hOrg, hts, hs]
        · simp [hOrg, hts, hs, h]
    · rw [dbRead_mem_iff]
      refine ⟨(middlewareCreateCall actionMapping req userCtx orgCtx statusCode durationMs
        durationStr now).row, ?_, ?_, rfl⟩
      · rw [dbReplay_eq]
        simp
      · unfold DBAuditLogger.rowMatches
        rcases he with h | h
        · subst h
          simp [middlewareCreateCall, CreateCall.row, CreateCall.effectiveTs, horg, hs]
        · by_cases hpos : 0 < e <;>
            simp [middlewareCreateCall, CreateCall.row, CreateCall.effectiveTs, horg,
              hs, h, hpos]
  · intro ht fs ds
    constructor
    · rw [fileRead_eq_filter]
      intro hmem
      rw [List.mem_filter] at hmem
      have hm := hmem.2
      unfold FileAuditLogger.eventMatches at hm
      simp only [Bool.and_eq_true, beq_iff_eq] at hm
      exact ht (hm.1.1.symm.trans hOrg)
    · rw [dbRead_mem_iff]
      rintro ⟨r, hr, hm, hev⟩
      unfold DBAuditLogger.rowMatches at hm
      simp only [Bool.and_eq_true, beq_iff_eq] at hm
      have hro : r.org_id = 0 := by
        have h2 := congrArg AuditEvent.OrgID hev
        rw [hOrg] at h2
        exact h2
      exact ht (hm.1.1.symm.trans hro)

theorem C10_missingTenant_witness :
    getOrgIDFromContext .absent = 0 ∧
      (middlewareLoggedEvent [] ⟨"GET", "/x", "/x", "ua", "addr"⟩ .absent .absent 200 5
        "5ms" 50).OrgID = 0 ∧
      middlewareLoggedEvent [] ⟨"GET", "/x", "/x", "ua", "addr"⟩ .absent .absent 200 5
          "5ms" 50 ∈
        FileAuditLogger.ReadAuditEvents
          (FileAuditLogger.replay [] [middlewareCreateCall [] ⟨"GET", "/x", "/x", "ua", "addr"⟩
            .absent .absent 200 5 "5ms" 50]) 0 0 0 ∧
      middlewareLoggedEvent [] ⟨"GET", "/x", "/x", "ua", "addr"⟩ .absent .absent 200 5
          "5ms" 50 ∉
        FileAuditLogger.ReadAuditEvents [] 123 0 0 := by
  have h := C10_missingTenantLogsAsZero [] ⟨"GET", "/x", "/x", "ua", "addr"⟩ .absent .absent
    200 5 "5ms" 50 0 0 123 (Or.inl rfl)
  exact ⟨h.1, h.2.1, (h.2.2.1 [] [] (by decide) (Or.inl rfl)).1, (h.2.2.2 (by decide) [] []).1⟩

theorem C3_amended_witness :
    (DBAuditLogger.ReadAuditEvents
        (DBAuditLogger.replay [] [⟨"alice", "a", "", 10, 1, none, 99⟩,
          ⟨"bob", "b", "", 5, 1, none, 99⟩]) 1 0 0).Pairwise
        (fun a b => a.EpochTimestampSec < b.EpochTimestampSec) :=
  (C3_amended [⟨"alice", "a", "", 10, 1, none, 99⟩, ⟨"bob", "b", "", 5, 1, none, 99⟩]
    1 0 0 (by decide)).1
